import Mathlib

/-!
Verification of the DiagCodeAI orchestration, curation and history core.

The definitions below are shallow embeddings of the TypeScript source:

* `isRetryableError`, `onSubmit` — `src/components/diagnosis-tool.tsx`
  (error classifier, joint suggestion retry driver);
* `extractTextFromDocumentFlow`, `summarizeExtensiveDocumentFlow` —
  `src/ai/flows/extract-text-from-document.ts`,
  `src/ai/flows/summarize-extensive-document.ts`;
* `handleSetPrincipalDiagnosis`, `handleToggleSelectedDiagnosis`,
  `handleSaveToHistory`, `handleCodingSystemValueChange` —
  `src/components/diagnosis-tool.tsx`;
* the JS-value model, `handleImportFileSelect`, `handleExportHistory`,
  `handleDeleteEntry` — `src/components/history-panel.tsx` over the Dexie
  store of `src/lib/db.ts`.

JavaScript data is modelled as follows: strings are Lean `String`s, JS
numbers are rationals (none of the verified operations computes with them),
`undefined`/`null` and objects/arrays appear via the `JSValue` type, and a
remote call that may reject is a value of `Option`/`Except` supplied by an
oracle.  `Promise.allSettled` of the two suggestion operations is an
`AttemptSettle` record per attempt.
-/

/-! ### Small string utilities (JS `String.prototype.includes` / `toLowerCase`) -/

/-- Character-list prefix test used to model `String.prototype.includes`. -/
def matchesAt : List Char → List Char → Bool
  | [], _ => true
  | _ :: _, [] => false
  | a :: ns, b :: hs => a == b && matchesAt ns hs

/-- Substring containment on character lists. -/
def containsSub (needle : List Char) : List Char → Bool
  | [] => matchesAt needle []
  | b :: hs => matchesAt needle (b :: hs) || containsSub needle hs

/-- JS `hay.includes(needle)`. -/
def strIncludes (hay needle : String) : Bool :=
  containsSub needle.data hay.data

/-- JS `s.toLowerCase()` (the messages probed are ASCII), written over the
character list so that it evaluates by reduction. -/
def jsToLower (s : String) : String :=
  String.mk (s.data.map Char.toLower)

/-- Drop leading whitespace characters from a character list. -/
def dropLeadingWs : List Char → List Char
  | [] => []
  | c :: cs => if c.isWhitespace then dropLeadingWs cs else c :: cs

/-- JS `s.trim()`: remove leading and trailing whitespace (the texts involved
use ASCII whitespace), written over the character list so that it evaluates
by reduction. -/
def jsTrim (s : String) : String :=
  String.mk ((dropLeadingWs (dropLeadingWs s.data.reverse).reverse))

/-! ### Error classifier (`isRetryableError`, diagnosis-tool.tsx lines 89-95) -/

/-- A JavaScript error value: either an `Error` instance carrying a message,
or any other thrown value (for which `error instanceof Error` is false). -/
inductive JSError where
  | error (message : String)
  | nonError
deriving DecidableEq

/-- `isRetryableError` from diagnosis-tool.tsx: inspects the lower-cased
message for capacity / availability / rate-limit substrings; an empty
message is falsy in JS, so it classifies as non-retryable. -/
def isRetryableError : JSError → Bool
  | JSError.error message =>
      message ≠ "" &&
        (let lowerCaseMessage := jsToLower message
         strIncludes lowerCaseMessage "503" ||
         strIncludes lowerCaseMessage "overloaded" ||
         strIncludes lowerCaseMessage "service unavailable" ||
         strIncludes lowerCaseMessage "rate limit")
  | JSError.nonError => false

/-! ### Suggestion orchestration retry driver (`onSubmit`, diagnosis-tool.tsx) -/

/-- Delay schedule for the joint suggestion retry
(`AI_SUGGESTION_RETRY_DELAYS_MS`, diagnosis-tool.tsx line 83). -/
def AI_SUGGESTION_RETRY_DELAYS_MS : List Nat := [2000, 3000, 15000]

/-- `MAX_AI_SUGGESTION_ATTEMPTS = AI_SUGGESTION_RETRY_DELAYS_MS.length + 1`
(diagnosis-tool.tsx line 84). -/
def MAX_AI_SUGGESTION_ATTEMPTS : Nat := AI_SUGGESTION_RETRY_DELAYS_MS.length + 1

/-- Outcome of one `Promise.allSettled` pair: the rejection reason of each of
the two concurrently settled operations (`none` = fulfilled). -/
structure AttemptSettle where
  conceptsErr : Option JSError
  diagnosesErr : Option JSError

/-- A settled result is a retryable failure when it was rejected with a
retryable reason (diagnosis-tool.tsx lines 511-518). -/
def retryableReject : Option JSError → Bool
  | some e => isRetryableError e
  | none => false

/-- `needsRetry` of `onSubmit`: either settled result rejected retryably. -/
def needsRetry (s : AttemptSettle) : Bool :=
  retryableReject s.conceptsErr || retryableReject s.diagnosesErr

/-- The observable retry skeleton of `onSubmit` (diagnosis-tool.tsx lines
486-532): given an oracle describing how the joint
`Promise.allSettled([extractClinicalConcepts ..., suggestDiagnoses ...])`
settles on each attempt, returns the list of attempt numbers at which the
joint invocation runs, and the scheduled `(next attempt, delay)` pairs
(`setTimeout(..., AI_SUGGESTION_RETRY_DELAYS_MS[currentAttempt - 1])`).
Out-of-range indexing would yield `undefined`, i.e. a zero delay, hence the
`getD _ 0`. -/
def onSubmit (oracle : Nat → AttemptSettle) (currentAttempt : Nat) :
    List Nat × List (Nat × Nat) :=
  if h : needsRetry (oracle currentAttempt) = true ∧
      currentAttempt < MAX_AI_SUGGESTION_ATTEMPTS then
    let nextDelay := AI_SUGGESTION_RETRY_DELAYS_MS.getD (currentAttempt - 1) 0
    let rest := onSubmit oracle (currentAttempt + 1)
    (currentAttempt :: rest.1, (currentAttempt + 1, nextDelay) :: rest.2)
  else
    ([currentAttempt], [])
termination_by MAX_AI_SUGGESTION_ATTEMPTS - currentAttempt
decreasing_by omega

/-- C1: with the three-delay schedule and attempt ceiling 4, if every attempt
settles with at least one retryable failure then exactly four joint
invocations occur (attempts 1..4) and the delay scheduled before attempt
`k+1` is `D[k-1]`; an attempt with no retryable failure schedules nothing
further. -/
theorem c1_suggestion_retry_schedule (oracle : Nat → AttemptSettle) :
    ((∀ k, needsRetry (oracle k) = true) →
       onSubmit oracle 1 = ([1, 2, 3, 4], [(2, 2000), (3, 3000), (4, 15000)]))
    ∧ (∀ a, needsRetry (oracle a) = false → onSubmit oracle a = ([a], [])) := by
  constructor
  · intro h
    have h4 : onSubmit oracle 4 = ([4], []) := by
      unfold onSubmit
      simp [MAX_AI_SUGGESTION_ATTEMPTS, AI_SUGGESTION_RETRY_DELAYS_MS]
    have h3 : onSubmit oracle 3 = ([3, 4], [(4, 15000)]) := by
      unfold onSubmit
      simp [MAX_AI_SUGGESTION_ATTEMPTS, AI_SUGGESTION_RETRY_DELAYS_MS, h 3, h4]
    have h2 : onSubmit oracle 2 = ([2, 3, 4], [(3, 3000), (4, 15000)]) := by
      unfold onSubmit
      simp [MAX_AI_SUGGESTION_ATTEMPTS, AI_SUGGESTION_RETRY_DELAYS_MS, h 2, h3]
    unfold onSubmit
    simp [MAX_AI_SUGGESTION_ATTEMPTS, AI_SUGGESTION_RETRY_DELAYS_MS, h 1, h2]
  · intro a ha
    unfold onSubmit
    simp [ha]

/-- C1 witness: an oracle whose diagnosis suggestion keeps rejecting with a
rate-limit style 503 error produces exactly the four invocations and the
three scheduled delays. -/
theorem c1_suggestion_retry_schedule_witness :
    onSubmit (fun _ => ⟨none, some (JSError.error "503 Service Unavailable")⟩) 1 =
      ([1, 2, 3, 4], [(2, 2000), (3, 3000), (4, 15000)]) :=
  (c1_suggestion_retry_schedule
    (fun _ => ⟨none, some (JSError.error "503 Service Unavailable")⟩)).1
    (fun _ => by decide)

/-! ### Document ingestion flows (extract-text-from-document.ts,
summarize-extensive-document.ts)

The remote prompt call is external; its settled value is passed in as
`output : Option String` where `none` models a missing/absent structured
output object and `some t` models an output whose text field is `t`
(`!output || !output.extractedText` collapses to `none` or `some ""`). -/

/-- Terminal fallback text of `extractTextFromDocumentFlow` (line 106). -/
def extractTextFallback (mimeType : String) : String :=
  "No se pudo extraer texto del documento (" ++ mimeType ++
    "). Por favor, verifique el archivo o ingrese el texto manualmente."

/-- Terminal fallback text of `summarizeExtensiveDocumentFlow` (line 59). -/
def summarizeFallback (mimeType : String) : String :=
  "No se pudo extraer o procesar texto relevante del documento extenso (" ++
    mimeType ++
    ") usando el método de documento extenso. Por favor, verifique el archivo o ingrese el texto manualmente."

/-- The simulated development-mode response of `extractTextFromDocumentFlow`
(lines 60-101), abbreviated here to its distinctive header and trailer; the
flow only passes it through verbatim, so its body never matters to any
property below. -/
def simulatedExtractedText (mimeType : String) : String :=
  "--- INICIO DE TEXTO SIMULADO (desde " ++ mimeType ++ ") ---" ++
    "\n\n**Datos del Paciente:** ... (respuesta simulada fija) ...\n\n--- FIN DE TEXTO SIMULADO ---\n"

/-- `extractTextFromDocumentFlow` (extract-text-from-document.ts lines
49-110): in development mode an image/PDF gets the fixed simulated text;
otherwise the prompt output is substituted by the fallback exactly when the
output object is missing or its `extractedText` is the empty string
(`!output || !output.extractedText`) — a whitespace-only text is truthy and
is returned unchanged. -/
def extractTextFromDocumentFlow (devMode : Bool) (mimeType : String)
    (output : Option String) : String :=
  if devMode && (mimeType.startsWith "image/" || mimeType == "application/pdf") then
    simulatedExtractedText mimeType
  else
    match output with
    | none => extractTextFallback mimeType
    | some extractedText =>
        if extractedText = "" then extractTextFallback mimeType else extractedText

/-- `summarizeExtensiveDocumentFlow` (summarize-extensive-document.ts lines
52-62): the fallback is substituted when the output object is missing, or
its text is empty or whitespace-only
(`!output || !output.processedClinicalNotes ||
output.processedClinicalNotes.trim() === ""`; `t = ""` implies
`jsTrim t = ""`, so one trim test covers both text conditions). -/
def summarizeExtensiveDocumentFlow (mimeType : String)
    (output : Option String) : String :=
  match output with
  | none => summarizeFallback mimeType
  | some processedClinicalNotes =>
      if jsTrim processedClinicalNotes = "" then summarizeFallback mimeType
      else processedClinicalNotes

/-- C2 counterexample: a standard-extraction call that succeeds with the
whitespace-only text `" "` hands exactly that whitespace-only string to the
caller (production mode), so the claim that the caller never receives an
empty or whitespace-only string after a successful call is false. -/
theorem c2_whitespace_passthrough_counterexample :
    extractTextFromDocumentFlow false "image/png" (some " ") = " " ∧
      jsTrim " " = "" := by
  constructor
  · rfl
  · decide

/-- C2 amended: the condensation flow substitutes its MIME-referencing
placeholder for an empty or whitespace-only result, so its caller receives
either text with non-blank content or the placeholder; the standard
extraction flow substitutes its placeholder only when the output is missing
or exactly empty, and passes any non-empty (including whitespace-only) text
through unchanged. -/
theorem c2_blank_text_fallback_amended (mimeType : String) (output : Option String) :
    (summarizeExtensiveDocumentFlow mimeType output = summarizeFallback mimeType
       ∨ ∃ t, output = some t ∧ jsTrim t ≠ "" ∧
           summarizeExtensiveDocumentFlow mimeType output = t)
    ∧ (extractTextFromDocumentFlow false mimeType output = extractTextFallback mimeType
       ∨ ∃ t, output = some t ∧ t ≠ "" ∧
           extractTextFromDocumentFlow false mimeType output = t)
    ∧ (∀ t, output = some t → t ≠ "" →
        extractTextFromDocumentFlow false mimeType output = t) := by
  refine ⟨?_, ?_, ?_⟩
  · match output with
    | none => exact Or.inl rfl
    | some t =>
      by_cases h : jsTrim t = ""
      · exact Or.inl (by simp [summarizeExtensiveDocumentFlow, h])
      · exact Or.inr ⟨t, rfl, h, by simp [summarizeExtensiveDocumentFlow, h]⟩
  · match output with
    | none => exact Or.inl rfl
    | some t =>
      by_cases h : t = ""
      · exact Or.inl (by simp [extractTextFromDocumentFlow, h])
      · exact Or.inr ⟨t, rfl, h, by simp [extractTextFromDocumentFlow, h]⟩
  · intro t ht hne
    subst ht
    simp [extractTextFromDocumentFlow, hne]

/-- C2 amended witness: a non-empty successful extraction is passed through. -/
theorem c2_blank_text_fallback_witness :
    extractTextFromDocumentFlow false "application/pdf" (some "texto") = "texto" :=
  (c2_blank_text_fallback_amended "application/pdf" (some "texto")).2.2
    "texto" rfl (by decide)

/-! ### Diagnosis curation model (diagnosis-tool.tsx)

`UIDiagnosis` mirrors `src/lib/db.ts`: `isPrincipal` / `isSelected` are
optional booleans (`boolean | undefined`), modelled as `Option Bool`; JS
truthiness of such a field is `truthy`. -/

/-- `UIDiagnosis` of `src/lib/db.ts` (confidence is a JS number, modelled as
a rational; no verified operation computes with it). -/
structure UIDiagnosis where
  code : String
  description : String
  confidence : ℚ
  id : String
  isPrincipal : Option Bool := none
  isSelected : Option Bool := none
deriving DecidableEq

/-- JS truthiness of a `boolean | undefined` field. -/
def truthy : Option Bool → Bool
  | some b => b
  | none => false

/-- `handleSetPrincipalDiagnosis` (diagnosis-tool.tsx lines 411-423): set
`isPrincipal` to `id === diagnosisId` on every item, then move the first
principal to the head, keeping the items whose `id` differs from the
principal's. -/
def handleSetPrincipalDiagnosis (diagnosisId : String)
    (prevDiagnoses : List UIDiagnosis) : List UIDiagnosis :=
  let newDiagnoses := prevDiagnoses.map fun diag =>
    { diag with isPrincipal := some (diag.id = diagnosisId) }
  match newDiagnoses.find? (fun d => truthy d.isPrincipal) with
  | some principal => principal :: newDiagnoses.filter (fun d => d.id ≠ principal.id)
  | none => newDiagnoses

/-- `handleToggleSelectedDiagnosis` (diagnosis-tool.tsx lines 425-431): flip
(the truthiness of) `isSelected` on the items with the given id. -/
def handleToggleSelectedDiagnosis (diagnosisId : String)
    (prevDiagnoses : List UIDiagnosis) : List UIDiagnosis :=
  prevDiagnoses.map fun diag =>
    if diag.id = diagnosisId then { diag with isSelected := some (!truthy diag.isSelected) }
    else diag

/-- The per-item update of `handleSetPrincipalDiagnosis`. -/
def markPrincipal (diagnosisId : String) (d : UIDiagnosis) : UIDiagnosis :=
  { d with isPrincipal := some (d.id = diagnosisId) }

/-- Demoted item: `isPrincipal` set to `false`. -/
def markNotPrincipal (d : UIDiagnosis) : UIDiagnosis :=
  { d with isPrincipal := some false }

lemma markPrincipal_id (x : String) (d : UIDiagnosis) : (markPrincipal x d).id = d.id := rfl

lemma find_principal_mapped (x : String) (l : List UIDiagnosis) :
    (l.map (markPrincipal x)).find? (fun d => truthy d.isPrincipal) =
      (l.find? (fun d => d.id = x)).map (markPrincipal x) := by
  induction l with
  | nil => rfl
  | cons h t ih =>
      by_cases hx : h.id = x
      · simp [List.find?, markPrincipal, truthy, hx]
      · simp only [List.map_cons, List.find?]
        have h1 : truthy (markPrincipal x h).isPrincipal = false := by
          simp [markPrincipal, truthy, hx]
        simp [h1, hx, ih]

lemma filter_comm_map {α β : Type} (f : α → β) (p : β → Bool) (l : List α) :
    (l.map f).filter p = (l.filter (fun a => p (f a))).map f := by
  induction l with
  | nil => rfl
  | cons h t ih =>
      by_cases hp : p (f h)
      · simp [List.filter, hp, ih]
      · simp [List.filter, hp, ih]

/-- Characterisation of `handleSetPrincipalDiagnosis` when the target id is
present: the (first) target, flagged principal, moves to the head, and it is
followed by the items of other ids, demoted, in their original order. -/
lemma setPrincipal_eq (x : String) (l : List UIDiagnosis) (t : UIDiagnosis)
    (ht : l.find? (fun d => d.id = x) = some t) :
    handleSetPrincipalDiagnosis x l =
      { t with isPrincipal := some true } ::
        (l.filter (fun d => d.id ≠ x)).map markNotPrincipal := by
  have htx : t.id = x := by
    have := List.find?_some ht
    simpa using this
  unfold handleSetPrincipalDiagnosis
  have hfind : (l.map (markPrincipal x)).find? (fun d => truthy d.isPrincipal) =
      some (markPrincipal x t) := by
    rw [find_principal_mapped x l, ht]
    rfl
  show (match (l.map (markPrincipal x)).find? (fun d => truthy d.isPrincipal) with
    | some principal =>
        principal :: (l.map (markPrincipal x)).filter (fun d => d.id ≠ principal.id)
    | none => l.map (markPrincipal x)) =
    { t with isPrincipal := some true } ::
      (l.filter (fun d => d.id ≠ x)).map markNotPrincipal
  have hhead : markPrincipal x t = { t with isPrincipal := some true } := by
    simp [markPrincipal, htx]
  have hfilter : (l.map (markPrincipal x)).filter
      (fun d => d.id ≠ (markPrincipal x t).id) =
      (l.filter (fun d => d.id ≠ x)).map markNotPrincipal := by
    rw [filter_comm_map]
    have : ∀ d : UIDiagnosis, (decide (d.id ≠ x) : Bool) =
        decide ((markPrincipal x d).id ≠ (markPrincipal x t).id) := by
      intro d
      simp [markPrincipal, htx]
    rw [List.filter_congr (fun d _ => (this d).symm)]
    apply List.map_congr_left
    intro d hd
    have hdx : d.id ≠ x := by simpa using (List.mem_filter.mp hd).2
    simp [markPrincipal, markNotPrincipal, hdx]
  rw [hfind]
  show markPrincipal x t ::
      (l.map (markPrincipal x)).filter (fun d => d.id ≠ (markPrincipal x t).id) =
    { t with isPrincipal := some true } ::
      (l.filter (fun d => d.id ≠ x)).map markNotPrincipal
  rw [hfilter, hhead]

lemma markNotPrincipal_id (d : UIDiagnosis) : (markNotPrincipal d).id = d.id := rfl

lemma filter_ne_length (x : String) (l : List UIDiagnosis)
    (hnd : (l.map (fun d => d.id)).Nodup) (hx : x ∈ l.map (fun d => d.id)) :
    (l.filter (fun d => d.id ≠ x)).length + 1 = l.length := by
  induction l with
  | nil => simp at hx
  | cons h t ih =>
      simp only [List.map_cons, List.nodup_cons] at hnd
      by_cases hhx : h.id = x
      · have hne : ∀ d ∈ t, ¬d.id = x := by
          intro d hd hdx
          exact hnd.1 (by rw [hhx, ← hdx]; exact List.mem_map_of_mem _ hd)
        have hdrop : (h :: t).filter (fun d => d.id ≠ x) = t := by
          rw [List.filter_cons]
          rw [if_neg (by simp [hhx])]
          exact List.filter_eq_self.mpr fun d hd => decide_eq_true (hne d hd)
        rw [hdrop]
        simp
      · have hxt : x ∈ t.map (fun d => d.id) := by
          rcases (by simpa using hx : x = h.id ∨ ∃ a ∈ t, a.id = x) with h1 | ⟨a, ha, hax⟩
          · exact absurd h1.symm hhx
          · exact List.mem_map.mpr ⟨a, ha, hax⟩
        have hrec := ih hnd.2 hxt
        have hstep : (h :: t).filter (fun d => d.id ≠ x) =
            h :: t.filter (fun d => d.id ≠ x) := by
          rw [List.filter_cons]
          simp [hhx]
        rw [hstep]
        simp only [List.length_cons]
        omega

lemma setPrincipal_cons_head (x : String) (t' : UIDiagnosis) (rest : List UIDiagnosis)
    (ht' : t'.id = x) (hrest : ∀ d ∈ rest, d.id ≠ x) :
    handleSetPrincipalDiagnosis x (t' :: rest) =
      { t' with isPrincipal := some true } :: rest.map markNotPrincipal := by
  have hfind : (t' :: rest).find? (fun d => d.id = x) = some t' := by
    simp [List.find?, ht']
  rw [setPrincipal_eq x (t' :: rest) t' hfind]
  congr 1
  have hstep : (t' :: rest).filter (fun d => d.id ≠ x) =
      rest.filter (fun d => d.id ≠ x) := by
    rw [List.filter_cons]
    simp [ht']
  rw [hstep, List.filter_eq_self.mpr fun d hd => decide_eq_true (hrest d hd)]

/-- C6: with the surrogate-key invariant (distinct `id`s) and `x`, `y`
present and distinct: `setPrincipal(x)` moves the target, flagged
`isPrincipal := true`, to index 0 followed by all the other items, demoted
to `isPrincipal := false`, in their original relative order; no item is
lost; applying `setPrincipal(y)` afterwards leaves exactly one principal,
namely `y`, at index 0; and `setPrincipal(x)` is idempotent. -/
theorem c6_set_principal (l : List UIDiagnosis) (x y : String)
    (hnd : (l.map (fun d => d.id)).Nodup)
    (hx : x ∈ l.map (fun d => d.id)) (hy : y ∈ l.map (fun d => d.id))
    (hxy : x ≠ y) :
    (∃ t, l.find? (fun d => d.id = x) = some t ∧ t.id = x ∧
      handleSetPrincipalDiagnosis x l =
        { t with isPrincipal := some true } ::
          (l.filter (fun d => d.id ≠ x)).map markNotPrincipal)
    ∧ (handleSetPrincipalDiagnosis x l).length = l.length
    ∧ ((handleSetPrincipalDiagnosis y (handleSetPrincipalDiagnosis x l)).countP
          (fun d => truthy d.isPrincipal) = 1
        ∧ ∃ u, (handleSetPrincipalDiagnosis y
              (handleSetPrincipalDiagnosis x l)).head? = some u
            ∧ u.id = y ∧ truthy u.isPrincipal = true)
    ∧ handleSetPrincipalDiagnosis x (handleSetPrincipalDiagnosis x l) =
        handleSetPrincipalDiagnosis x l := by
  obtain ⟨t', hft⟩ : ∃ t', l.find? (fun d => d.id = x) = some t' := by
    apply Option.isSome_iff_exists.mp
    rw [List.find?_isSome]
    obtain ⟨d, hd, hdx⟩ := List.mem_map.mp hx
    exact ⟨d, hd, by simp [hdx]⟩
  have htx' : t'.id = x := by simpa using List.find?_some hft
  have heq := setPrincipal_eq x l t' hft
  have hrest : ∀ d ∈ (l.filter (fun d => d.id ≠ x)).map markNotPrincipal, d.id ≠ x := by
    intro d hd
    obtain ⟨d0, hd0, rfl⟩ := List.mem_map.mp hd
    rw [markNotPrincipal_id]
    simpa using (List.mem_filter.mp hd0).2
  refine ⟨⟨t', hft, htx', heq⟩, ?_, ?_, ?_⟩
  · rw [heq]
    simp only [List.length_cons, List.length_map]
    exact filter_ne_length x l hnd hx
  · rw [heq]
    obtain ⟨u₂, hfy⟩ : ∃ u₂, ({ t' with isPrincipal := some true } ::
        (l.filter (fun d => d.id ≠ x)).map markNotPrincipal).find?
          (fun d => d.id = y) = some u₂ := by
      apply Option.isSome_iff_exists.mp
      rw [List.find?_isSome]
      obtain ⟨u0, hu0, hu0y⟩ := List.mem_map.mp hy
      have hu0f : u0 ∈ l.filter (fun d => d.id ≠ x) := by
        rw [List.mem_filter]
        refine ⟨hu0, decide_eq_true ?_⟩
        rw [hu0y]
        exact fun h => hxy h.symm
      refine ⟨markNotPrincipal u0, List.mem_cons_of_mem _ (List.mem_map_of_mem _ hu0f), ?_⟩
      simp [markNotPrincipal_id, hu0y]
    have hu₂y : u₂.id = y := by simpa using List.find?_some hfy
    rw [setPrincipal_eq y _ u₂ hfy]
    have htail : ((({ t' with isPrincipal := some true } ::
        (l.filter (fun d => d.id ≠ x)).map markNotPrincipal).filter
          (fun d => d.id ≠ y)).map markNotPrincipal).countP
            (fun d => truthy d.isPrincipal) = 0 := by
      rw [List.countP_eq_zero]
      intro a ha
      obtain ⟨a0, _, rfl⟩ := List.mem_map.mp ha
      simp [markNotPrincipal, truthy]
    constructor
    · rw [List.countP_cons, htail]
      simp [truthy]
    · exact ⟨{ u₂ with isPrincipal := some true }, rfl, hu₂y, rfl⟩
  · rw [heq]
    rw [setPrincipal_cons_head x { t' with isPrincipal := some true }
      ((l.filter (fun d => d.id ≠ x)).map markNotPrincipal) htx' hrest]
    congr 1
    rw [List.map_map]
    apply List.map_congr_left
    intro d _
    simp [markNotPrincipal, Function.comp]

/-- C6 witness: on a concrete two-item list, marking "b" principal after
"a" is principal leaves exactly one principal, namely "b", at index 0. -/
theorem c6_set_principal_witness :
    (handleSetPrincipalDiagnosis "b" (handleSetPrincipalDiagnosis "a"
        [{ code := "A00", description := "colera", confidence := 9/10, id := "a" },
         { code := "B01", description := "varicela", confidence := 1/2, id := "b" }])).countP
      (fun d => truthy d.isPrincipal) = 1 :=
  ((c6_set_principal
    [{ code := "A00", description := "colera", confidence := 9/10, id := "a" },
     { code := "B01", description := "varicela", confidence := 1/2, id := "b" }]
    "a" "b" (by decide) (by decide) (by decide) (by decide)).2.2.1).1

lemma toggle_once_cons (x : String) (h : UIDiagnosis) (t : List UIDiagnosis) :
    handleToggleSelectedDiagnosis x (h :: t) =
      (if h.id = x then { h with isSelected := some (!truthy h.isSelected) } else h) ::
        handleToggleSelectedDiagnosis x t := by
  unfold handleToggleSelectedDiagnosis
  rfl

lemma toggle_toggle (x : String) (l : List UIDiagnosis)
    (hflags : ∀ d ∈ l, ∃ b, d.isSelected = some b) :
    handleToggleSelectedDiagnosis x (handleToggleSelectedDiagnosis x l) = l := by
  induction l with
  | nil => rfl
  | cons h t ih =>
      rw [toggle_once_cons, toggle_once_cons]
      rw [ih (fun d hd => hflags d (List.mem_cons_of_mem _ hd))]
      congr 1
      obtain ⟨b, hb⟩ := hflags h (List.mem_cons_self h t)
      by_cases hdx : h.id = x
      · obtain ⟨c₁, c₂, c₃, c₄, c₅, c₆⟩ := h
        simp only at hdx hb
        subst hb
        simp [hdx, truthy]
      · simp [hdx]

/-- C7: with the surrogate-key invariant and the target id present, where
every item carries an explicit `isSelected` boolean (the shape produced by
both suggestion arrival and import): `toggleSelected(x)` keeps the length
and the order, leaves every item of another id untouched, flips `isSelected`
on the item with id `x` in place, and applying it twice gives back exactly
the original list. -/
theorem c7_toggle_selected (l : List UIDiagnosis) (x : String)
    (hnd : (l.map (fun d => d.id)).Nodup) (hx : x ∈ l.map (fun d => d.id))
    (hflags : ∀ d ∈ l, ∃ b, d.isSelected = some b) :
    (handleToggleSelectedDiagnosis x l).length = l.length
    ∧ (∀ i (h1 : i < l.length) (h2 : i < (handleToggleSelectedDiagnosis x l).length),
        (l[i].id ≠ x → (handleToggleSelectedDiagnosis x l)[i] = l[i])
        ∧ (l[i].id = x → (handleToggleSelectedDiagnosis x l)[i] =
            { l[i] with isSelected := some (!truthy l[i].isSelected) }))
    ∧ handleToggleSelectedDiagnosis x (handleToggleSelectedDiagnosis x l) = l := by
  refine ⟨by simp [handleToggleSelectedDiagnosis], ?_, toggle_toggle x l hflags⟩
  intro i h1 h2
  constructor
  · intro hne
    simp only [handleToggleSelectedDiagnosis, List.getElem_map]
    rw [if_neg hne]
  · intro heq
    simp only [handleToggleSelectedDiagnosis, List.getElem_map]
    rw [if_pos heq]

/-- C7 witness: toggling the selection of "a" twice on a concrete two-item
list with explicit selection flags restores the original list. -/
theorem c7_toggle_selected_witness :
    handleToggleSelectedDiagnosis "a" (handleToggleSelectedDiagnosis "a"
      [{ code := "A00", description := "colera", confidence := 9/10, id := "a",
         isPrincipal := some false, isSelected := some true },
       { code := "B01", description := "varicela", confidence := 1/2, id := "b",
         isPrincipal := some false, isSelected := some false }]) =
      [{ code := "A00", description := "colera", confidence := 9/10, id := "a",
         isPrincipal := some false, isSelected := some true },
       { code := "B01", description := "varicela", confidence := 1/2, id := "b",
         isPrincipal := some false, isSelected := some false }] :=
  (c7_toggle_selected
    [{ code := "A00", description := "colera", confidence := 9/10, id := "a",
       isPrincipal := some false, isSelected := some true },
     { code := "B01", description := "varicela", confidence := 1/2, id := "b",
       isPrincipal := some false, isSelected := some false }]
    "a" (by decide) (by decide) (by decide)).2.2

/-! ### JavaScript value model and the Dexie history store

`JSValue` models the JavaScript values that flow through the history panel:
`JSON.parse` results, the objects Dexie stores, and the entries built by
the import conversion.  An object is its ordered list of own properties; JS
objects have no duplicate keys, and property update (`{...d, k: v}`)
overwrites in place or appends. -/

inductive JSValue where
  | vUndefined
  | vNull
  | vBool (b : Bool)
  | vNum (n : ℚ)
  | vStr (s : String)
  | vArr (elems : List JSValue)
  | vObj (fields : List (String × JSValue))

/-- First value stored under a key (`undefined` when absent). -/
def lookupField : List (String × JSValue) → String → JSValue
  | [], _ => JSValue.vUndefined
  | (k', v) :: rest, k => if k' = k then v else lookupField rest k

/-- JS member access `o.k`: `undefined` on a missing key or a non-object
(the validator only reaches member access inside a caught `try`, so a
throwing access on `null`/`undefined` also ends in rejection, which this
collapse preserves). -/
def getProp (v : JSValue) (k : String) : JSValue :=
  match v with
  | JSValue.vObj fields => lookupField fields k
  | _ => JSValue.vUndefined

/-- Property update semantics of a JS object literal spread `{...o, k: v}`:
overwrite the key in place if present, otherwise append. -/
def setField (k : String) (v : JSValue) : List (String × JSValue) → List (String × JSValue)
  | [] => [(k, v)]
  | (k', v') :: rest => if k' = k then (k, v) :: rest else (k', v') :: setField k v rest

/-- `setField` lifted to object values (only ever applied to objects). -/
def setProp (o : JSValue) (k : String) (v : JSValue) : JSValue :=
  match o with
  | JSValue.vObj fields => JSValue.vObj (setField k v fields)
  | other => other

/-- Rest-spread `const { k, ...rest } = o`: the object without the key. -/
def removeProp (o : JSValue) (k : String) : JSValue :=
  match o with
  | JSValue.vObj fields => JSValue.vObj (fields.filter (fun f => f.1 ≠ k))
  | other => other

/-- `typeof v === "number"`. -/
def isNum : JSValue → Bool
  | JSValue.vNum _ => true
  | _ => false

/-- `typeof v === "string"`. -/
def isStr : JSValue → Bool
  | JSValue.vStr _ => true
  | _ => false

/-- `typeof v === "boolean"`. -/
def isBool : JSValue → Bool
  | JSValue.vBool _ => true
  | _ => false

/-- `v === undefined`. -/
def isUndef : JSValue → Bool
  | JSValue.vUndefined => true
  | _ => false

/-- `Array.isArray(v)`. -/
def isArrayV : JSValue → Bool
  | JSValue.vArr _ => true
  | _ => false

/-- The element list of an array value (only read behind `Array.isArray`). -/
def asArr : JSValue → List JSValue
  | JSValue.vArr elems => elems
  | _ => []

/-- `v ?? false` (nullish coalescing). -/
def coalesceFalse (v : JSValue) : JSValue :=
  match v with
  | JSValue.vUndefined => JSValue.vBool false
  | JSValue.vNull => JSValue.vBool false
  | other => other

/-- Per-diagnosis validation of `handleImportFileSelect`
(history-panel.tsx lines 152-159): string `code`/`description`/`id`,
numeric `confidence`, boolean-or-undefined `isPrincipal`/`isSelected`. -/
def validDiagnosis (d : JSValue) : Bool :=
  isStr (getProp d "code") &&
  isStr (getProp d "description") &&
  isNum (getProp d "confidence") &&
  isStr (getProp d "id") &&
  (isBool (getProp d "isPrincipal") || isUndef (getProp d "isPrincipal")) &&
  (isBool (getProp d "isSelected") || isUndef (getProp d "isSelected"))

/-- Per-entry validation of `handleImportFileSelect` (history-panel.tsx lines
146-160): numeric timestamp, string clinical text, string coding system (no
membership test against the three coding systems), array of concepts (its
elements are not inspected), array of diagnoses each passing
`validDiagnosis`. -/
def validEntry (e : JSValue) : Bool :=
  isNum (getProp e "timestamp") &&
  isStr (getProp e "clinicalText") &&
  isStr (getProp e "codingSystem") &&
  isArrayV (getProp e "extractedConcepts") &&
  isArrayV (getProp e "suggestedDiagnoses") &&
  (asArr (getProp e "suggestedDiagnoses")).all validDiagnosis

/-- Whole-payload validation (history-panel.tsx lines 143-161): an array all
of whose entries validate. -/
def validImport (v : JSValue) : Bool :=
  isArrayV v && (asArr v).all validEntry

/-- Diagnosis conversion applied by the import
(`{...d, isPrincipal: d.isPrincipal ?? false, isSelected: d.isSelected ?? false}`,
history-panel.tsx lines 176-180). -/
def convertDiag (d : JSValue) : JSValue :=
  setProp (setProp d "isPrincipal" (coalesceFalse (getProp d "isPrincipal")))
    "isSelected" (coalesceFalse (getProp d "isSelected"))

/-- Entry conversion applied by the import (history-panel.tsx lines 171-182):
drop `id`, rebuild `suggestedDiagnoses` with defaulted flags. -/
def convertEntry (e : JSValue) : JSValue :=
  setProp (removeProp e "id") "suggestedDiagnoses"
    (JSValue.vArr ((asArr (getProp e "suggestedDiagnoses")).map convertDiag))

/-- The Dexie table `db.history` (`src/lib/db.ts`): auto-increment primary
key `++id` (the key generator is not reset by `clear`), entries stored as JS
objects carrying their assigned `id`. -/
structure HistoryStore where
  nextId : ℕ
  entries : List JSValue

/-- `db.history.add(e)`: Dexie assigns the next id into the stored object
(appending the property, since added objects carry no `id`). -/
def addEntry (s : HistoryStore) (e : JSValue) : HistoryStore :=
  { nextId := s.nextId + 1,
    entries := s.entries ++ [setProp e "id" (JSValue.vNum s.nextId)] }

/-- `db.history.bulkAdd(es)`. -/
def bulkAdd (s : HistoryStore) (es : List JSValue) : HistoryStore :=
  es.foldl addEntry s

/-- `db.history.clear()`. -/
def clearStore (s : HistoryStore) : HistoryStore :=
  { s with entries := [] }

/-- `handleExportHistory` (history-panel.tsx lines 99-131): serialises every
record, `id` included.  `JSON.stringify`/`JSON.parse` are the platform's and
are modelled at the value level (the composition is the identity on these
values), so export produces the array value directly. -/
def handleExportHistory (s : HistoryStore) : JSValue :=
  JSValue.vArr s.entries

/-- Outcome reported by the import handler's toasts. -/
inductive ImportOutcome where
  | replaced
  | invalidFormat
  | parseError
deriving DecidableEq

/-- `handleImportFileSelect` (history-panel.tsx lines 133-203) on an already
read file: `none` models a `JSON.parse` failure (caught, store untouched);
an invalid payload is rejected before any mutation; a valid payload clears
the store and bulk-adds the converted entries. -/
def handleImportFileSelect (s : HistoryStore) (parsed : Option JSValue) :
    HistoryStore × ImportOutcome :=
  match parsed with
  | none => (s, ImportOutcome.parseError)
  | some v =>
      if validImport v then
        (bulkAdd (clearStore s) ((asArr v).map convertEntry), ImportOutcome.replaced)
      else
        (s, ImportOutcome.invalidFormat)

/-- Outcome reported by `handleDeleteEntry`'s toasts. -/
inductive DeleteOutcome where
  | ignoredNoId
  | deletedOk
deriving DecidableEq

/-- Does a stored entry carry the primary key `i`? -/
def idMatches (e : JSValue) (i : ℚ) : Bool :=
  match getProp e "id" with
  | JSValue.vNum n => n == i
  | _ => false

/-- `db.history.delete(i)`: remove the record with primary key `i`.  Dexie's
`Table.delete` resolves successfully whether or not the key exists
(IndexedDB delete semantics); its promise rejects only on storage-level
failure, which the pure model does not produce. -/
def deleteById (s : HistoryStore) (i : ℚ) : HistoryStore :=
  { s with entries := s.entries.filter (fun e => !idMatches e i) }

/-- `handleDeleteEntry` (history-panel.tsx lines 64-80): an undefined id
returns silently; otherwise the delete resolves and the success toast
("Entrada eliminada") is shown — the catch branch (error toast) is reachable
only through a storage-level rejection. -/
def handleDeleteEntry (s : HistoryStore) (id : Option ℚ) :
    HistoryStore × DeleteOutcome :=
  match id with
  | none => (s, DeleteOutcome.ignoredNoId)
  | some i => (deleteById s i, DeleteOutcome.deletedOk)

/-! ### Component state of `DiagnosisTool` (diagnosis-tool.tsx) -/

/-- The pieces of `DiagnosisTool` state that the verified handlers read or
write (`useState` hooks, the form fields, and the `localStorage` mirror of
the coding system). -/
structure ToolState where
  clinicalText : String
  codingSystem : String
  extractedConcepts : List String
  suggestedDiagnoses : List UIDiagnosis
  clinicalSummary : Option String
  error : Option String
  submitted : Bool
  isLoading : Bool
  uploadedFileName : Option String
  lastCodingSystemStored : String

/-- JS truthiness of a `string | null` state value (`null` and `""` falsy). -/
def jsTruthyOptStr : Option String → Bool
  | none => false
  | some s => s ≠ ""

/-- An optional boolean UI flag as a stored JS value. -/
def encodeFlagOpt : Option Bool → JSValue
  | none => JSValue.vUndefined
  | some b => JSValue.vBool b

/-- A `string | null` state value as a stored JS value. -/
def encodeOptStr : Option String → JSValue
  | none => JSValue.vNull
  | some s => JSValue.vStr s

/-- A `UIDiagnosis` as the JS object saved into history (field order of the
object literals of diagnosis-tool.tsx: AI fields, then `id` and the flags). -/
def encodeDiagnosis (d : UIDiagnosis) : JSValue :=
  JSValue.vObj
    [("code", JSValue.vStr d.code),
     ("description", JSValue.vStr d.description),
     ("confidence", JSValue.vNum d.confidence),
     ("id", JSValue.vStr d.id),
     ("isPrincipal", encodeFlagOpt d.isPrincipal),
     ("isSelected", encodeFlagOpt d.isSelected)]

/-- The `historyEntry` object literal of `handleSaveToHistory`
(diagnosis-tool.tsx lines 440-448); `now` stands for `Date.now()`. -/
def historyEntryOf (now : ℚ) (st : ToolState) : JSValue :=
  JSValue.vObj
    [("timestamp", JSValue.vNum now),
     ("clinicalText", JSValue.vStr st.clinicalText),
     ("codingSystem", JSValue.vStr st.codingSystem),
     ("extractedConcepts", JSValue.vArr (st.extractedConcepts.map JSValue.vStr)),
     ("suggestedDiagnoses", JSValue.vArr (st.suggestedDiagnoses.map encodeDiagnosis)),
     ("fileName", encodeOptStr st.uploadedFileName),
     ("clinicalSummary", encodeOptStr st.clinicalSummary)]

/-- Outcome reported by `handleSaveToHistory`'s toasts. -/
inductive SaveOutcome where
  | saved
  | nothingToSave
deriving DecidableEq

/-- `handleSaveToHistory` (diagnosis-tool.tsx lines 433-455): the guard
`!submitted || isLoading || error || (suggestedDiagnoses.length === 0 &&
!clinicalSummary)` rejects with the "No se puede guardar" toast; otherwise
the entry is added to the store (the storage write itself is modelled as
succeeding). -/
def handleSaveToHistory (now : ℚ) (st : ToolState) (store : HistoryStore) :
    HistoryStore × SaveOutcome :=
  if !st.submitted || st.isLoading || jsTruthyOptStr st.error ||
      (st.suggestedDiagnoses.isEmpty && !jsTruthyOptStr st.clinicalSummary) then
    (store, SaveOutcome.nothingToSave)
  else
    (addEntry store (historyEntryOf now st), SaveOutcome.saved)

/-- The `onValueChange` handler of the coding-system `Select`
(diagnosis-tool.tsx lines 807-815): update the form field, persist the
choice to `localStorage`, and clear the suggested diagnoses. -/
def handleCodingSystemValueChange (st : ToolState) (value : String) : ToolState :=
  { st with
      codingSystem := value,
      lastCodingSystemStored := value,
      suggestedDiagnoses := [] }

/-- C10: changing the coding-system selection always empties the
suggested-diagnosis list and persists the new value, while the extracted
concepts, the clinical summary and the clinical text are left unchanged. -/
theorem c10_coding_system_change_frame (st : ToolState) (value : String) :
    (handleCodingSystemValueChange st value).suggestedDiagnoses = []
    ∧ (handleCodingSystemValueChange st value).codingSystem = value
    ∧ (handleCodingSystemValueChange st value).lastCodingSystemStored = value
    ∧ (handleCodingSystemValueChange st value).extractedConcepts = st.extractedConcepts
    ∧ (handleCodingSystemValueChange st value).clinicalSummary = st.clinicalSummary
    ∧ (handleCodingSystemValueChange st value).clinicalText = st.clinicalText := by
  exact ⟨rfl, rfl, rfl, rfl, rfl, rfl⟩

/-- A completed, error-free submission with no diagnoses whose summary is
the empty string (the state `handleGenerateSummary` leaves after a failed
summary generation, `setClinicalSummary("")`). -/
def emptySummaryState : ToolState :=
  { clinicalText := "paciente con dolor abdominal agudo",
    codingSystem := "CIE-10",
    extractedConcepts := ["dolor abdominal"],
    suggestedDiagnoses := [],
    clinicalSummary := some "",
    error := none,
    submitted := true,
    isLoading := false,
    uploadedFileName := none,
    lastCodingSystemStored := "CIE-10" }

/-- C8 counterexample: a completed submission without error, with an empty
diagnosis list and a non-null (but empty-string, hence falsy) clinical
summary, is rejected with the nothing-to-save toast and the store is left
unchanged — the claim that any non-null summary suffices to add a record is
false. -/
theorem c8_save_empty_summary_counterexample :
    emptySummaryState.clinicalSummary ≠ none ∧
    handleSaveToHistory 0 emptySummaryState ⟨1, []⟩ =
      (⟨1, []⟩, SaveOutcome.nothingToSave) := by
  exact ⟨by simp [emptySummaryState], rfl⟩

/-- C8 amended: for a completed submission without error and an empty
diagnosis list, saving adds exactly one record when the clinical summary is
truthy (non-null and non-empty), and performs no store mutation while
reporting the nothing-to-save rejection when the summary is null or empty. -/
theorem c8_save_guard_amended (now : ℚ) (st : ToolState) (store : HistoryStore)
    (hsub : st.submitted = true) (hload : st.isLoading = false)
    (herr : jsTruthyOptStr st.error = false)
    (hdiag : st.suggestedDiagnoses = []) :
    (jsTruthyOptStr st.clinicalSummary = true →
      handleSaveToHistory now st store =
        (addEntry store (historyEntryOf now st), SaveOutcome.saved))
    ∧ (jsTruthyOptStr st.clinicalSummary = false →
      handleSaveToHistory now st store = (store, SaveOutcome.nothingToSave)) := by
  constructor
  · intro hsum
    unfold handleSaveToHistory
    rw [if_neg]
    simp [hsub, hload, herr, hsum]
  · intro hsum
    unfold handleSaveToHistory
    rw [if_pos]
    simp [hsub, hload, herr, hdiag, hsum]

/-- C8 amended witness: the same state with a non-empty summary does add a
record, and with the empty-string summary it does not. -/
theorem c8_save_guard_witness :
    handleSaveToHistory 0 { emptySummaryState with clinicalSummary := some "resumen" } ⟨1, []⟩ =
      (addEntry ⟨1, []⟩ (historyEntryOf 0 { emptySummaryState with clinicalSummary := some "resumen" }),
        SaveOutcome.saved)
    ∧ handleSaveToHistory 0 emptySummaryState ⟨1, []⟩ = (⟨1, []⟩, SaveOutcome.nothingToSave) :=
  ⟨(c8_save_guard_amended 0 { emptySummaryState with clinicalSummary := some "resumen" } ⟨1, []⟩
      rfl rfl rfl rfl).1 (by simp [emptySummaryState, jsTruthyOptStr]),
   (c8_save_guard_amended 0 emptySummaryState ⟨1, []⟩ rfl rfl rfl rfl).2
      (by simp [emptySummaryState, jsTruthyOptStr])⟩

/-- A one-entry store whose single record has id 1. -/
def oneEntryStore : HistoryStore :=
  ⟨2, [JSValue.vObj
    [("timestamp", JSValue.vNum 10),
     ("clinicalText", JSValue.vStr "texto clinico de prueba"),
     ("codingSystem", JSValue.vStr "CIE-10"),
     ("extractedConcepts", JSValue.vArr []),
     ("suggestedDiagnoses", JSValue.vArr []),
     ("fileName", JSValue.vNull),
     ("clinicalSummary", JSValue.vNull),
     ("id", JSValue.vNum 1)]]⟩

/-- C9 counterexample: deleting id 2, absent from the store, completes
through the success path (success toast, `DeleteOutcome.deletedOk`) with the
store unchanged — no recoverable failure is reported to the caller, so the
claim is false. -/
theorem c9_delete_absent_counterexample :
    handleDeleteEntry oneEntryStore (some 2) = (oneEntryStore, DeleteOutcome.deletedOk) := by
  rfl

/-- C9 amended: `delete(id)` removes exactly the records carrying that id
(exactly one under the store's unique-key invariant, counted below); when
the id is absent the store is unchanged and the operation still completes
through the success path, not the failure path — the error toast is reserved
for storage-level rejections; an undefined id returns silently. -/
theorem c9_delete_behaviour_amended (s : HistoryStore) (i : ℚ) :
    ((handleDeleteEntry s (some i)).1.entries =
        s.entries.filter (fun e => !idMatches e i)
      ∧ (handleDeleteEntry s (some i)).2 = DeleteOutcome.deletedOk)
    ∧ (s.entries.countP (fun e => idMatches e i) = 1 →
        (handleDeleteEntry s (some i)).1.entries.length + 1 = s.entries.length)
    ∧ ((∀ e ∈ s.entries, idMatches e i = false) →
        handleDeleteEntry s (some i) = (s, DeleteOutcome.deletedOk))
    ∧ handleDeleteEntry s none = (s, DeleteOutcome.ignoredNoId) := by
  refine ⟨⟨rfl, rfl⟩, ?_, ?_, rfl⟩
  · intro hcount
    show (s.entries.filter (fun e => !idMatches e i)).length + 1 = s.entries.length
    have hlen : (s.entries.filter (fun e => !idMatches e i)).length =
        s.entries.countP (fun e => !idMatches e i) :=
      (List.countP_eq_length_filter _ _).symm
    have hsplit : s.entries.countP (fun e => !idMatches e i) +
        s.entries.countP (fun e => idMatches e i) = s.entries.length := by
      induction s.entries with
      | nil => rfl
      | cons h t ih =>
          rw [List.countP_cons, List.countP_cons, List.length_cons]
          by_cases hm : idMatches h i
          · simp [hm]
            omega
          · simp [hm]
            omega
    omega
  · intro habsent
    show ({ s with entries := s.entries.filter (fun e => !idMatches e i) },
        DeleteOutcome.deletedOk) = (s, DeleteOutcome.deletedOk)
    have : s.entries.filter (fun e => !idMatches e i) = s.entries :=
      List.filter_eq_self.mpr fun e he => by rw [habsent e he]; rfl
    rw [this]

/-- C9 amended witness: deleting the present id 1 removes that single
record; deleting the absent id 2 leaves the store unchanged yet reports
success. -/
theorem c9_delete_behaviour_witness :
    (handleDeleteEntry oneEntryStore (some 1)).1.entries.length + 1 =
        oneEntryStore.entries.length
    ∧ handleDeleteEntry oneEntryStore (some 2) =
        (oneEntryStore, DeleteOutcome.deletedOk) :=
  ⟨(c9_delete_behaviour_amended oneEntryStore 1).2.1 (by rfl),
   (c9_delete_behaviour_amended oneEntryStore 2).2.2.1 (by
      intro e he
      simp only [oneEntryStore, List.mem_singleton] at he
      subst he
      rfl)⟩

/-! ### Import validation and round trip (C3, C4, C5) -/

lemma lookupField_setField_self (k : String) (v : JSValue)
    (fs : List (String × JSValue)) :
    lookupField (setField k v fs) k = v := by
  induction fs with
  | nil => simp [setField, lookupField]
  | cons f rest ih =>
      obtain ⟨k', v'⟩ := f
      by_cases hk : k' = k
      · simp [setField, hk, lookupField]
      · simp [setField, hk, lookupField, ih]

lemma lookupField_setField_other (k k' : String) (hkk : k ≠ k') (v : JSValue)
    (fs : List (String × JSValue)) :
    lookupField (setField k v fs) k' = lookupField fs k' := by
  induction fs with
  | nil => simp [setField, lookupField, hkk]
  | cons f rest ih =>
      obtain ⟨a, b⟩ := f
      by_cases ha : a = k
      · subst ha
        simp [setField, lookupField, hkk]
      · simp [setField, ha, lookupField, ih]

lemma getProp_setProp_self (fs : List (String × JSValue)) (k : String) (v : JSValue) :
    getProp (setProp (JSValue.vObj fs) k v) k = v := by
  simp [setProp, getProp, lookupField_setField_self]

lemma getProp_setProp_other (fs : List (String × JSValue)) (k k' : String)
    (hkk : k ≠ k') (v : JSValue) :
    getProp (setProp (JSValue.vObj fs) k v) k' = getProp (JSValue.vObj fs) k' := by
  simp [setProp, getProp, lookupField_setField_other k k' hkk]

/-- C3 counterexample payload: the coding system is not one of CIE-10 /
CIE-11 / CIE-O and the concepts array holds non-string elements. -/
def c3BadPayload : JSValue :=
  JSValue.vArr [JSValue.vObj
    [("timestamp", JSValue.vNum 5),
     ("clinicalText", JSValue.vStr "texto clinico"),
     ("codingSystem", JSValue.vStr "SNOMED-CT"),
     ("extractedConcepts", JSValue.vArr [JSValue.vNum 7, JSValue.vBool true]),
     ("suggestedDiagnoses", JSValue.vArr [])]]

/-- C3 counterexample: the payload with an out-of-set coding system and a
non-string concept element passes validation, the import is not rejected,
and the store is mutated (the entry is stored), refuting the claim. -/
theorem c3_import_accepts_bad_payload_counterexample :
    validImport c3BadPayload = true
    ∧ (handleImportFileSelect ⟨1, []⟩ (some c3BadPayload)).2 = ImportOutcome.replaced
    ∧ (handleImportFileSelect ⟨1, []⟩ (some c3BadPayload)).1.entries.length = 1 := by
  exact ⟨rfl, rfl, rfl⟩

/-- C3 amended: the import validation checks only the JS types — any string
is accepted as the coding system and the concept array's elements are never
inspected — so a valid entry stays valid under an arbitrary coding-system
string or an arbitrary concepts array, and every payload passing this
validation replaces the store. -/
theorem c3_import_validation_amended (e : JSValue) (sys : String)
    (xs : List JSValue) (hv : validEntry e = true) :
    validEntry (setProp e "codingSystem" (JSValue.vStr sys)) = true
    ∧ validEntry (setProp e "extractedConcepts" (JSValue.vArr xs)) = true
    ∧ ∀ (s : HistoryStore) (v : JSValue), validImport v = true →
        (handleImportFileSelect s (some v)).2 = ImportOutcome.replaced := by
  have hobj : ∃ fs, e = JSValue.vObj fs := by
    rcases e with _ | _ | b | n | str | elems | fs
    case vObj => exact ⟨fs, rfl⟩
    all_goals simp [validEntry, getProp, isNum] at hv
  obtain ⟨fs, rfl⟩ := hobj
  unfold validEntry at hv
  simp only [Bool.and_eq_true] at hv
  obtain ⟨⟨⟨⟨⟨h1, h2⟩, h3⟩, h4⟩, h5⟩, h6⟩ := hv
  refine ⟨?_, ?_, ?_⟩
  · unfold validEntry
    rw [getProp_setProp_other fs "codingSystem" "timestamp" (by decide),
        getProp_setProp_other fs "codingSystem" "clinicalText" (by decide),
        getProp_setProp_self fs "codingSystem",
        getProp_setProp_other fs "codingSystem" "extractedConcepts" (by decide),
        getProp_setProp_other fs "codingSystem" "suggestedDiagnoses" (by decide)]
    simp only [Bool.and_eq_true]
    exact ⟨⟨⟨⟨⟨h1, h2⟩, rfl⟩, h4⟩, h5⟩, h6⟩
  · unfold validEntry
    rw [getProp_setProp_other fs "extractedConcepts" "timestamp" (by decide),
        getProp_setProp_other fs "extractedConcepts" "clinicalText" (by decide),
        getProp_setProp_other fs "extractedConcepts" "codingSystem" (by decide),
        getProp_setProp_self fs "extractedConcepts",
        getProp_setProp_other fs "extractedConcepts" "suggestedDiagnoses" (by decide)]
    simp only [Bool.and_eq_true]
    exact ⟨⟨⟨⟨⟨h1, h2⟩, h3⟩, rfl⟩, h5⟩, h6⟩
  · intro s v hvv
    show (if validImport v = true then
        (bulkAdd (clearStore s) ((asArr v).map convertEntry), ImportOutcome.replaced)
      else (s, ImportOutcome.invalidFormat)).2 = ImportOutcome.replaced
    rw [if_pos hvv]

/-- A concrete structurally valid history entry. -/
def c3ValidEntry : JSValue :=
  JSValue.vObj
    [("timestamp", JSValue.vNum 5),
     ("clinicalText", JSValue.vStr "texto"),
     ("codingSystem", JSValue.vStr "CIE-10"),
     ("extractedConcepts", JSValue.vArr []),
     ("suggestedDiagnoses", JSValue.vArr [])]

/-- C3 amended witness: a concrete valid entry keeps validating after its
coding system is replaced by "SNOMED-CT" and its concepts by a numeric
array. -/
theorem c3_import_validation_witness :
    validEntry (setProp c3ValidEntry "codingSystem" (JSValue.vStr "SNOMED-CT")) = true
    ∧ validEntry (setProp c3ValidEntry "extractedConcepts"
        (JSValue.vArr [JSValue.vNum 7])) = true :=
  ⟨(c3_import_validation_amended c3ValidEntry "SNOMED-CT" [JSValue.vNum 7] rfl).1,
   (c3_import_validation_amended c3ValidEntry "SNOMED-CT" [JSValue.vNum 7] rfl).2.1⟩

/-- C4: a payload that fails structural validation — unparseable JSON, a
non-array, or an entry with a missing required field such as a diagnosis
lacking a string `code` — leaves the store exactly as it was and reports a
rejection; a diagnosis without a `code` key indeed fails validation. -/
theorem c4_import_reject_no_mutation (s : HistoryStore) (p : Option JSValue) :
    (p = none → handleImportFileSelect s p = (s, ImportOutcome.parseError))
    ∧ (∀ v, p = some v → validImport v = false →
        handleImportFileSelect s p = (s, ImportOutcome.invalidFormat))
    ∧ (∀ (es ds : List JSValue) (v e d : JSValue), v = JSValue.vArr es → e ∈ es →
        getProp e "suggestedDiagnoses" = JSValue.vArr ds → d ∈ ds →
        getProp d "code" = JSValue.vUndefined → validImport v = false) := by
  refine ⟨?_, ?_, ?_⟩
  · intro hp
    subst hp
    rfl
  · intro v hp hv
    subst hp
    show (if validImport v = true then
        (bulkAdd (clearStore s) ((asArr v).map convertEntry), ImportOutcome.replaced)
      else (s, ImportOutcome.invalidFormat)) = (s, ImportOutcome.invalidFormat)
    rw [if_neg (by simp [hv])]
  · intro es ds v e d hv he hds hd hcode
    subst hv
    apply Bool.eq_false_iff.mpr
    intro hval
    unfold validImport at hval
    simp only [Bool.and_eq_true] at hval
    have hentry : validEntry e = true := by
      have := (List.all_eq_true.mp hval.2) e
      exact this (by simpa [asArr] using he)
    unfold validEntry at hentry
    simp only [Bool.and_eq_true] at hentry
    have hdiag : validDiagnosis d = true := by
      have := (List.all_eq_true.mp hentry.2) d
      apply this
      rw [hds]
      simpa [asArr] using hd
    unfold validDiagnosis at hdiag
    simp only [Bool.and_eq_true] at hdiag
    have := hdiag.1.1.1.1.1
    rw [hcode] at this
    simp [isStr] at this

/-- A payload whose only entry's only diagnosis lacks a `code` key. -/
def c4BadDiagnosisPayload : JSValue :=
  JSValue.vArr [JSValue.vObj
    [("timestamp", JSValue.vNum 5),
     ("clinicalText", JSValue.vStr "texto"),
     ("codingSystem", JSValue.vStr "CIE-10"),
     ("extractedConcepts", JSValue.vArr []),
     ("suggestedDiagnoses", JSValue.vArr [JSValue.vObj []])]]

/-- C4 witness: a parse failure and a payload whose only diagnosis lacks a
`code` both leave a concrete store untouched and report rejection. -/
theorem c4_import_reject_witness :
    handleImportFileSelect ⟨2, [JSValue.vStr "registro"]⟩ none =
      (⟨2, [JSValue.vStr "registro"]⟩, ImportOutcome.parseError)
    ∧ handleImportFileSelect ⟨2, [JSValue.vStr "registro"]⟩ (some c4BadDiagnosisPayload) =
      (⟨2, [JSValue.vStr "registro"]⟩, ImportOutcome.invalidFormat) := by
  constructor
  · exact (c4_import_reject_no_mutation ⟨2, [JSValue.vStr "registro"]⟩ none).1 rfl
  · apply (c4_import_reject_no_mutation ⟨2, [JSValue.vStr "registro"]⟩
      (some c4BadDiagnosisPayload)).2.1 c4BadDiagnosisPayload rfl
    apply (c4_import_reject_no_mutation ⟨2, [JSValue.vStr "registro"]⟩
        (some c4BadDiagnosisPayload)).2.2
      (asArr c4BadDiagnosisPayload) [JSValue.vObj []] c4BadDiagnosisPayload
      (JSValue.vObj
        [("timestamp", JSValue.vNum 5),
         ("clinicalText", JSValue.vStr "texto"),
         ("codingSystem", JSValue.vStr "CIE-10"),
         ("extractedConcepts", JSValue.vArr []),
         ("suggestedDiagnoses", JSValue.vArr [JSValue.vObj []])])
      (JSValue.vObj []) rfl (List.mem_singleton.mpr rfl) rfl
      (List.mem_singleton.mpr rfl) rfl

/-- Key presence in an object's field list. -/
def containsKey (fs : List (String × JSValue)) (k : String) : Bool :=
  fs.any (fun f => f.1 = k)

lemma containsKey_of_lookup_ne (k : String) (fs : List (String × JSValue))
    (h : lookupField fs k ≠ JSValue.vUndefined) : containsKey fs k = true := by
  induction fs with
  | nil => exact absurd rfl h
  | cons f rest ih =>
      obtain ⟨a, b⟩ := f
      by_cases ha : a = k
      · simp [containsKey, ha]
      · have hrest : lookupField rest k ≠ JSValue.vUndefined := by
          simpa [lookupField, ha] using h
        have hr := ih hrest
        simp only [containsKey] at hr ⊢
        simp [List.any_cons, hr]

lemma setField_lookup_self (k : String) (fs : List (String × JSValue))
    (h : containsKey fs k = true) :
    setField k (lookupField fs k) fs = fs := by
  induction fs with
  | nil => simp [containsKey] at h
  | cons f rest ih =>
      obtain ⟨a, b⟩ := f
      by_cases ha : a = k
      · subst ha
        simp [setField, lookupField]
      · have hrest : containsKey rest k = true := by
          simp [containsKey, ha] at h
          simpa [containsKey] using h
        simp [setField, lookupField, ha, ih hrest]

lemma setProp_getProp_self (fs : List (String × JSValue)) (k : String)
    (h : getProp (JSValue.vObj fs) k ≠ JSValue.vUndefined) :
    setProp (JSValue.vObj fs) k (getProp (JSValue.vObj fs) k) = JSValue.vObj fs := by
  simp only [getProp] at h ⊢
  simp [setProp, setField_lookup_self k fs (containsKey_of_lookup_ne k fs h)]

lemma filter_setField (k : String) (v : JSValue) (fs : List (String × JSValue)) :
    (setField k v fs).filter (fun f => f.1 ≠ k) = fs.filter (fun f => f.1 ≠ k) := by
  induction fs with
  | nil => simp [setField]
  | cons f rest ih =>
      obtain ⟨a, b⟩ := f
      by_cases ha : a = k
      · subst ha
        simp [setField]
      · have hstep : setField k v ((a, b) :: rest) = (a, b) :: setField k v rest := by
          simp [setField, ha]
        rw [hstep]
        have hpa : (fun f => decide ((f : String × JSValue).1 ≠ k)) (a, b) = true := by
          simp [ha]
        rw [List.filter_cons, List.filter_cons, if_pos hpa, if_pos hpa, ih]

lemma removeProp_setProp (e : JSValue) (k : String) (v : JSValue) :
    removeProp (setProp e k v) k = removeProp e k := by
  cases e
  case vObj fs =>
    show JSValue.vObj ((setField k v fs).filter (fun f => f.1 ≠ k)) =
      JSValue.vObj (fs.filter (fun f => f.1 ≠ k))
    exact congrArg JSValue.vObj (filter_setField k v fs)
  all_goals rfl

lemma removeProp_idem (e : JSValue) (k : String) :
    removeProp (removeProp e k) k = removeProp e k := by
  cases e
  case vObj fs =>
    show JSValue.vObj ((fs.filter (fun f => f.1 ≠ k)).filter (fun f => f.1 ≠ k)) =
      JSValue.vObj (fs.filter (fun f => f.1 ≠ k))
    exact congrArg JSValue.vObj
      (List.filter_eq_self.mpr fun f hf => (List.mem_filter.mp hf).2)
  all_goals rfl

lemma lookupField_filter_ne (fs : List (String × JSValue)) (k k' : String)
    (h : k' ≠ k) :
    lookupField (fs.filter (fun f => f.1 ≠ k)) k' = lookupField fs k' := by
  induction fs with
  | nil => rfl
  | cons f rest ih =>
      obtain ⟨a, b⟩ := f
      by_cases ha : a = k
      · subst ha
        have hdrop : ((a, b) :: rest).filter (fun f => f.1 ≠ a) =
            rest.filter (fun f => f.1 ≠ a) := by
          rw [List.filter_cons, if_neg]
          simp
        rw [hdrop, ih]
        have hak : ¬(a = k') := fun hc => h hc.symm
        simp [lookupField, hak]
      · have hkeep : ((a, b) :: rest).filter (fun f => f.1 ≠ k) =
            (a, b) :: rest.filter (fun f => f.1 ≠ k) := by
          rw [List.filter_cons, if_pos]
          simp [ha]
        rw [hkeep]
        by_cases hak : a = k'
        · simp [lookupField, hak]
        · show (if a = k' then b else lookupField (rest.filter (fun f => f.1 ≠ k)) k') =
            (if a = k' then b else lookupField rest k')
          rw [if_neg hak, if_neg hak, ih]

lemma isBool_exists (v : JSValue) (h : isBool v = true) : ∃ b, v = JSValue.vBool b := by
  cases v
  case vBool b => exact ⟨b, rfl⟩
  all_goals simp [isBool] at h

lemma isArrayV_eq (v : JSValue) (h : isArrayV v = true) :
    v = JSValue.vArr (asArr v) := by
  cases v
  case vArr elems => rfl
  all_goals simp [isArrayV] at h

lemma validDiagnosis_obj (d : JSValue) (h : validDiagnosis d = true) :
    ∃ fs, d = JSValue.vObj fs := by
  cases d
  case vObj fs => exact ⟨fs, rfl⟩
  all_goals simp [validDiagnosis, getProp, isStr] at h

lemma validEntry_obj (e : JSValue) (h : validEntry e = true) :
    ∃ fs, e = JSValue.vObj fs := by
  cases e
  case vObj fs => exact ⟨fs, rfl⟩
  all_goals simp [validEntry, getProp, isNum] at h

/-- Both optional flags of a stored diagnosis are explicit booleans (the
shape produced by every save of this version and by every import). -/
def flagsExplicit (d : JSValue) : Bool :=
  isBool (getProp d "isPrincipal") && isBool (getProp d "isSelected")

/-- Every diagnosis of a stored entry carries explicit boolean flags. -/
def entryFlagsExplicit (e : JSValue) : Bool :=
  (asArr (getProp e "suggestedDiagnoses")).all flagsExplicit

lemma convertDiag_id (d : JSValue) (hv : validDiagnosis d = true)
    (hf : flagsExplicit d = true) : convertDiag d = d := by
  obtain ⟨fs, rfl⟩ := validDiagnosis_obj d hv
  unfold flagsExplicit at hf
  simp only [Bool.and_eq_true] at hf
  obtain ⟨bp, hbp⟩ := isBool_exists _ hf.1
  obtain ⟨bs, hbs⟩ := isBool_exists _ hf.2
  unfold convertDiag
  rw [hbp]
  rw [show coalesceFalse (JSValue.vBool bp) = JSValue.vBool bp from rfl, ← hbp]
  rw [setProp_getProp_self fs "isPrincipal" (by rw [hbp]; simp)]
  rw [hbs]
  rw [show coalesceFalse (JSValue.vBool bs) = JSValue.vBool bs from rfl, ← hbs]
  exact setProp_getProp_self fs "isSelected" (by rw [hbs]; simp)

lemma convertEntry_strips_id (e : JSValue) (hv : validEntry e = true)
    (hf : entryFlagsExplicit e = true) :
    convertEntry e = removeProp e "id" := by
  obtain ⟨fs, rfl⟩ := validEntry_obj _ hv
  unfold validEntry at hv
  simp only [Bool.and_eq_true] at hv
  obtain ⟨⟨⟨⟨⟨h1, h2⟩, h3⟩, h4⟩, h5⟩, h6⟩ := hv
  have hds := isArrayV_eq _ h5
  have hmap : (asArr (getProp (JSValue.vObj fs) "suggestedDiagnoses")).map convertDiag =
      asArr (getProp (JSValue.vObj fs) "suggestedDiagnoses") := by
    calc (asArr (getProp (JSValue.vObj fs) "suggestedDiagnoses")).map convertDiag
        = (asArr (getProp (JSValue.vObj fs) "suggestedDiagnoses")).map id :=
          List.map_congr_left (fun d hd => by
            have hvd : validDiagnosis d = true := List.all_eq_true.mp h6 d hd
            have hfd : flagsExplicit d = true :=
              List.all_eq_true.mp (by exact hf) d hd
            exact convertDiag_id d hvd hfd)
      _ = asArr (getProp (JSValue.vObj fs) "suggestedDiagnoses") := List.map_id _
  unfold convertEntry
  rw [hmap, ← hds]
  have hlook : getProp (removeProp (JSValue.vObj fs) "id") "suggestedDiagnoses" =
      getProp (JSValue.vObj fs) "suggestedDiagnoses" := by
    show lookupField (fs.filter (fun f => f.1 ≠ "id")) "suggestedDiagnoses" =
      lookupField fs "suggestedDiagnoses"
    exact lookupField_filter_ne fs "id" "suggestedDiagnoses" (by decide)
  rw [← hlook]
  exact setProp_getProp_self (fs.filter (fun f => f.1 ≠ "id")) "suggestedDiagnoses"
    (by
      have hlook' : getProp (JSValue.vObj (fs.filter (fun f => f.1 ≠ "id")))
          "suggestedDiagnoses" = getProp (JSValue.vObj fs) "suggestedDiagnoses" := hlook
      rw [hlook', hds]
      simp)

/-- The entries Dexie's `bulkAdd` appends, with sequential ids set in. -/
def withIds : ℕ → List JSValue → List JSValue
  | _, [] => []
  | n, e :: es => setProp e "id" (JSValue.vNum n) :: withIds (n + 1) es

lemma bulkAdd_entries (es : List JSValue) (s : HistoryStore) :
    (bulkAdd s es).entries = s.entries ++ withIds s.nextId es := by
  induction es generalizing s with
  | nil => simp [bulkAdd, withIds]
  | cons e rest ih =>
      show (bulkAdd (addEntry s e) rest).entries = _
      rw [ih (addEntry s e)]
      simp [addEntry, withIds]

lemma withIds_length (n : ℕ) (es : List JSValue) : (withIds n es).length = es.length := by
  induction es generalizing n with
  | nil => rfl
  | cons e rest ih => simp [withIds, ih]

lemma withIds_strip (n : ℕ) (es : List JSValue) :
    (withIds n es).map (fun e => removeProp e "id") =
      es.map (fun e => removeProp e "id") := by
  induction es generalizing n with
  | nil => rfl
  | cons e rest ih =>
      simp only [withIds, List.map_cons, ih]
      rw [removeProp_setProp]

/-- C5 counterexample store: structurally valid, but its single record's
single diagnosis omits the optional `isPrincipal` / `isSelected` flags. -/
def c5FlaglessStore : HistoryStore :=
  ⟨2, [JSValue.vObj
    [("timestamp", JSValue.vNum 10),
     ("clinicalText", JSValue.vStr "texto"),
     ("codingSystem", JSValue.vStr "CIE-10"),
     ("extractedConcepts", JSValue.vArr []),
     ("suggestedDiagnoses", JSValue.vArr [JSValue.vObj
        [("code", JSValue.vStr "A00"),
         ("description", JSValue.vStr "colera"),
         ("confidence", JSValue.vNum 1),
         ("id", JSValue.vStr "a")]]),
     ("fileName", JSValue.vNull),
     ("clinicalSummary", JSValue.vNull),
     ("id", JSValue.vNum 1)]]⟩

/-- Field count of the first diagnosis of the first entry: an observation
separating a store from its round-tripped image. -/
def firstDiagFieldCount (l : List JSValue) : ℕ :=
  match l with
  | JSValue.vObj fs :: _ =>
      match lookupField fs "suggestedDiagnoses" with
      | JSValue.vArr (JSValue.vObj dfs :: _) => dfs.length
      | _ => 0
  | _ => 0

/-- C5 counterexample: importing the export of `c5FlaglessStore` is accepted
and replaces the store, but the record contents excluding `id` change —
the import materialises `isPrincipal: false` and `isSelected: false` on the
diagnosis (4 fields become 6), refuting the claim for this store. -/
theorem c5_roundtrip_counterexample :
    (handleImportFileSelect c5FlaglessStore
        (some (handleExportHistory c5FlaglessStore))).2 = ImportOutcome.replaced
    ∧ (handleImportFileSelect c5FlaglessStore
        (some (handleExportHistory c5FlaglessStore))).1.entries.map
          (fun e => removeProp e "id") ≠
      c5FlaglessStore.entries.map (fun e => removeProp e "id") := by
  refine ⟨rfl, ?_⟩
  intro hc
  have h1 : firstDiagFieldCount
      ((handleImportFileSelect c5FlaglessStore
        (some (handleExportHistory c5FlaglessStore))).1.entries.map
          (fun e => removeProp e "id")) = 6 := rfl
  have h2 : firstDiagFieldCount
      (c5FlaglessStore.entries.map (fun e => removeProp e "id")) = 4 := rfl
  rw [hc, h2] at h1
  exact absurd h1 (by decide)

/-- C5 amended: for every store whose records are structurally valid and
whose diagnoses carry explicit boolean flags (the shape this version's save
and import always produce), `importReplace(exportAll())` is accepted, keeps
the record count, and leaves every record's contents excluding the
store-assigned `id` unchanged; for flag-less legacy records the round trip
additionally materialises the defaulted flags. -/
theorem c5_export_import_roundtrip (s : HistoryStore)
    (h : ∀ e ∈ s.entries, validEntry e = true ∧ entryFlagsExplicit e = true) :
    (handleImportFileSelect s (some (handleExportHistory s))).2 = ImportOutcome.replaced
    ∧ (handleImportFileSelect s (some (handleExportHistory s))).1.entries.length =
        s.entries.length
    ∧ (handleImportFileSelect s (some (handleExportHistory s))).1.entries.map
        (fun e => removeProp e "id") =
      s.entries.map (fun e => removeProp e "id") := by
  have hval : validImport (handleExportHistory s) = true := by
    unfold handleExportHistory validImport
    simp only [Bool.and_eq_true]
    exact ⟨rfl, List.all_eq_true.mpr (fun e he => (h e (by simpa [asArr] using he)).1)⟩
  have hres : handleImportFileSelect s (some (handleExportHistory s)) =
      (bulkAdd (clearStore s) ((asArr (handleExportHistory s)).map convertEntry),
        ImportOutcome.replaced) := by
    show (if validImport (handleExportHistory s) = true then _ else _) = _
    rw [if_pos hval]
  rw [hres]
  have hentries : (bulkAdd (clearStore s)
      ((asArr (handleExportHistory s)).map convertEntry)).entries =
      withIds s.nextId (s.entries.map convertEntry) := by
    rw [bulkAdd_entries]
    simp [clearStore, handleExportHistory, asArr]
  refine ⟨rfl, ?_, ?_⟩
  · simp only [hentries, withIds_length, List.length_map]
  · simp only [hentries]
    rw [withIds_strip]
    rw [List.map_map]
    apply List.map_congr_left
    intro e he
    show removeProp (convertEntry e) "id" = removeProp e "id"
    rw [convertEntry_strips_id e (h e he).1 (h e he).2]
    exact removeProp_idem e "id"

/-- A store of one structurally valid record with explicit diagnosis flags. -/
def c5GoodStore : HistoryStore :=
  ⟨2, [JSValue.vObj
    [("timestamp", JSValue.vNum 10),
     ("clinicalText", JSValue.vStr "texto"),
     ("codingSystem", JSValue.vStr "CIE-10"),
     ("extractedConcepts", JSValue.vArr [JSValue.vStr "fiebre"]),
     ("suggestedDiagnoses", JSValue.vArr [JSValue.vObj
        [("code", JSValue.vStr "A00"),
         ("description", JSValue.vStr "colera"),
         ("confidence", JSValue.vNum 1),
         ("id", JSValue.vStr "a"),
         ("isPrincipal", JSValue.vBool false),
         ("isSelected", JSValue.vBool true)]]),
     ("fileName", JSValue.vNull),
     ("clinicalSummary", JSValue.vNull),
     ("id", JSValue.vNum 1)]]⟩

/-- C5 amended witness: on the concrete well-formed store, the round trip is
accepted, preserves the count and the id-stripped record contents. -/
theorem c5_export_import_roundtrip_witness :
    (handleImportFileSelect c5GoodStore
        (some (handleExportHistory c5GoodStore))).1.entries.length =
      c5GoodStore.entries.length
    ∧ (handleImportFileSelect c5GoodStore
        (some (handleExportHistory c5GoodStore))).1.entries.map
          (fun e => removeProp e "id") =
      c5GoodStore.entries.map (fun e => removeProp e "id") :=
  ⟨(c5_export_import_roundtrip c5GoodStore (by
      intro e he
      simp only [c5GoodStore, List.mem_singleton] at he
      subst he
      exact ⟨rfl, rfl⟩)).2.1,
   (c5_export_import_roundtrip c5GoodStore (by
      intro e he
      simp only [c5GoodStore, List.mem_singleton] at he
      subst he
      exact ⟨rfl, rfl⟩)).2.2⟩
